import Mathlib

/-!
Verification of the dbt metadata extraction core (`dbtmetabase/dbt.py`).

The Python module reads dbt schema YAML documents and normalizes models and
columns into Metabase-friendly records.  We embed the YAML value space, the
dictionary operations the Python code performs, and the four functions
`parse_ref`, `read_column`, `read_model` and `read_models` of `DbtReader`.

Conventions of the embedding:
* a YAML mapping is an association list with string keys in insertion order
  (Python dicts preserve insertion order and have unique keys; first-match
  lookup coincides with dict lookup);
* Python exceptions (`KeyError`, `TypeError`, `AttributeError`) are modelled
  by `Except PyErr`, with `PyErr.typeError` standing for both `TypeError`
  and `AttributeError`;
* `str.upper` is modelled by per-character `Char.toUpper` (they agree on
  ASCII data, which is all the code and its fixtures manipulate);
* the `\w` character class of the `ref()` regex is modelled by ASCII
  alphanumerics (`Char.isAlphanum`); the quotes, parentheses and the capture
  logic are modelled exactly;
* logging calls are pure side channels and are dropped.
-/

/-- YAML values as produced by `yaml.safe_load`: null, strings, booleans,
sequences and mappings with string keys. -/
inductive Yaml where
  | null : Yaml
  | str : String → Yaml
  | bool : Bool → Yaml
  | seq : List Yaml → Yaml
  | map : List (String × Yaml) → Yaml
deriving Repr

/-- Python exceptions raised by the embedded code: `KeyError k`, and
`typeError` covering `TypeError`/`AttributeError`. -/
inductive PyErr where
  | keyError : String → PyErr
  | typeError : PyErr
deriving Repr, DecidableEq

/-- First-match lookup in an association list; for lists with unique keys
this is exactly Python dict lookup `d[k]`/`d.get(k)`. -/
def ylookup (m : List (String × Yaml)) (k : String) : Option Yaml :=
  match m with
  | [] => none
  | (k2, v) :: rest => if k2 = k then some v else ylookup rest k

/-- Python `d.get(k, default)` on a dict. -/
def getD (m : List (String × Yaml)) (k : String) (d : Yaml) : Yaml :=
  match ylookup m k with
  | some v => v
  | none => d

/-- Python subscript `container[k]` with a string key: dict lookup
(`KeyError` when missing), `TypeError` on every non-dict container. -/
def pySubscript (container : Yaml) (k : String) : Except PyErr Yaml :=
  match container with
  | Yaml.map m =>
    match ylookup m k with
    | some v => Except.ok v
    | none => Except.error (PyErr.keyError k)
  | _ => Except.error PyErr.typeError

/-- Python `==` between a YAML value and a string: only a string value can
compare equal to a string. -/
def yamlEqStr (v : Yaml) (k : String) : Bool :=
  match v with
  | Yaml.str s => s == k
  | _ => false

/-- Whether `needle` is an initial segment of `hay`. -/
def charsStart (needle hay : List Char) : Bool :=
  match needle, hay with
  | [], _ => true
  | _ :: _, [] => false
  | a :: as, b :: bs => a == b && charsStart as bs

/-- Whether `needle` occurs as a contiguous run inside `hay` (Python's
substring containment `needle in hay`). -/
def charsHave (needle : List Char) : List Char → Bool
  | [] => charsStart needle []
  | c :: rest => charsStart needle (c :: rest) || charsHave needle rest

/-- Python `k in container` for a string `k`: key containment for dicts,
membership for lists, substring test for strings, `TypeError` otherwise. -/
def pyContains (container : Yaml) (k : String) : Except PyErr Bool :=
  match container with
  | Yaml.map m => Except.ok (ylookup m k).isSome
  | Yaml.seq l => Except.ok (l.any (fun y => yamlEqStr y k))
  | Yaml.str s => Except.ok (charsHave k.data s.data)
  | _ => Except.error PyErr.typeError

/-- Python `for x in container`: sequences yield their elements, dicts yield
their keys, strings yield one-character strings, anything else raises
`TypeError`. -/
def pyIter (container : Yaml) : Except PyErr (List Yaml) :=
  match container with
  | Yaml.seq l => Except.ok l
  | Yaml.map m => Except.ok (m.map (fun kv => Yaml.str kv.1))
  | Yaml.str s => Except.ok (s.data.map (fun c => Yaml.str (String.mk [c])))
  | _ => Except.error PyErr.typeError

/-- Python `str.upper`, i.e. uppercasing character by character (the data
at hand is ASCII, where `Char.toUpper` agrees with Python's case
mapping). -/
def pyUpper (s : String) : String := String.mk (s.data.map Char.toUpper)

/-- Characters accepted by the capture group of the regex
`ref\(['\"]([\w\_\-\ ]+)['\"]\)`: word characters, underscore, hyphen,
space. -/
def isRefNameChar (c : Char) : Bool :=
  c.isAlphanum || c == '_' || c == '-' || c == ' '

/-- Characters matched by the `['\"]` class of the regex: a single or a
double quote (codepoints 39 and 34). -/
def isQuote (c : Char) : Bool :=
  c.toNat = 39 || c.toNat = 34

/-- Attempt of the `ref(...)` regex anchored at the head of `l`: literal
`ref(`, one quote, a nonempty maximal run of name characters (the greedy
`+` cannot backtrack into a successful match because quotes are not name
characters), one quote, a closing parenthesis.  Returns the captured run. -/
def matchRefAt (l : List Char) : Option (List Char) :=
  match l with
  | a :: b :: c :: d :: q :: rest =>
    if a = 'r' ∧ b = 'e' ∧ c = 'f' ∧ d = '(' ∧ isQuote q then
      match rest.takeWhile isRefNameChar with
      | [] => none
      | r :: rs =>
        match rest.dropWhile isRefNameChar with
        | q2 :: close :: _ =>
          if isQuote q2 ∧ close = ')' then some (r :: rs) else none
        | _ => none
    else none
  | _ => none

/-- Leftmost match of the `ref(...)` regex in `l`, as `re.findall` produces
it: try every start position from the left. -/
def findRef : List Char → Option (List Char)
  | [] => none
  | c :: cs =>
    match matchRefAt (c :: cs) with
    | some run => some run
    | none => findRef cs

/-- `DbtReader.parse_ref`: return the first captured `ref('X')`/`ref("X")`
name, or the input text unchanged when the regex finds no match. -/
def parse_ref (text : String) : String :=
  match findRef text.data with
  | some run => String.mk run
  | none => text

/-- The `_META_FIELDS` allow-list of recognized `metabase.*` columns
annotations. -/
def META_FIELDS : List String := ["semantic_type", "visibility_type"]

/-- Normalized column record built by `read_column`.  The Python function
returns a dict; `none` in an `Option` field means the corresponding key is
absent from that dict (`name` and `description` are always present). -/
structure MBColumn where
  name : String
  description : Yaml
  semantic_type : Option Yaml
  visibility_type : Option Yaml
  fk_target_table : Option String
  fk_target_field : Option String
deriving Repr

/-- Normalized model record built by `read_model`. -/
structure MBModel where
  name : String
  description : Yaml
  columns : List MBColumn
deriving Repr

/-- The `relationships` payload of a test, when the test is a dict that has
a `relationships` key (the two nested guards of the tests loop). -/
def relOf (test : Yaml) : Option Yaml :=
  match test with
  | Yaml.map tm => ylookup tm "relationships"
  | _ => none

/-- Whether a test is a relationship test: a dict containing the key
`relationships`. -/
def isRelTest (test : Yaml) : Bool := (relOf test).isSome

/-- The `fk_target_table` expression of `read_column`:
`column.get("meta", {}).get("metabase.fk_ref", parse_ref(relationships["to"])).upper()`.
Evaluation order follows Python: the `.get` attribute lookup on the meta
value first (`AttributeError` on a non-dict), then the default argument
`parse_ref(relationships["to"])` — even when `metabase.fk_ref` is present —
then the lookup, then `.upper()`. -/
def fkTargetTable (column : List (String × Yaml)) (relationships : Yaml) :
    Except PyErr String :=
  match getD column "meta" (Yaml.map []) with
  | Yaml.map mm =>
    match pySubscript relationships "to" with
    | Except.error e => Except.error e
    | Except.ok toV =>
      match toV with
      | Yaml.str toS =>
        match ylookup mm "metabase.fk_ref" with
        | some (Yaml.str s) => Except.ok (pyUpper s)
        | some _ => Except.error PyErr.typeError
        | none => Except.ok (pyUpper (parse_ref toS))
      | _ => Except.error PyErr.typeError
  | _ => Except.error PyErr.typeError

/-- The `fk_target_field` expression of `read_column`:
`relationships["field"].upper()`. -/
def fkTargetField (relationships : Yaml) : Except PyErr String :=
  match pySubscript relationships "field" with
  | Except.ok (Yaml.str s) => Except.ok (pyUpper s)
  | Except.ok _ => Except.error PyErr.typeError
  | Except.error e => Except.error e

/-- The tests loop of `read_column`: each relationship test overwrites
`semantic_type`, `fk_target_table` and `fk_target_field` in order. -/
def applyTests (column : List (String × Yaml)) :
    List Yaml → MBColumn → Except PyErr MBColumn
  | [], mb => Except.ok mb
  | test :: rest, mb =>
    match relOf test with
    | some rel =>
      match fkTargetTable column rel with
      | Except.error e => Except.error e
      | Except.ok tbl =>
        match fkTargetField rel with
        | Except.error e => Except.error e
        | Except.ok fld =>
          applyTests column rest
            { mb with
              semantic_type := some (Yaml.str "type/FK"),
              fk_target_table := some tbl,
              fk_target_field := some fld }
    | none => applyTests column rest mb

/-- The assignment `mb_column[field] = v` for a field drawn from
`META_FIELDS`. -/
def setMetaField (mb : MBColumn) (field : String) (v : Yaml) : MBColumn :=
  if field = "semantic_type" then { mb with semantic_type := some v }
  else if field = "visibility_type" then { mb with visibility_type := some v }
  else mb

/-- The `for field in _META_FIELDS` loop of `read_column`: copy each
`metabase.<field>` entry of the meta value into the column record. -/
def applyMetaFields (meta : Yaml) :
    List String → MBColumn → Except PyErr MBColumn
  | [], mb => Except.ok mb
  | f :: rest, mb =>
    match pyContains meta ("metabase." ++ f) with
    | Except.error e => Except.error e
    | Except.ok true =>
      match pySubscript meta ("metabase." ++ f) with
      | Except.error e => Except.error e
      | Except.ok v => applyMetaFields meta rest (setMetaField mb f v)
    | Except.ok false => applyMetaFields meta rest mb

/-- The meta block of `read_column`: the allow-listed annotations, then the
deprecated `metabase.special_type` alias, applied to `semantic_type` only
when that key is still absent (the deprecation warning is a dropped log
call). -/
def applyMeta (column : List (String × Yaml)) (mb : MBColumn) :
    Except PyErr MBColumn :=
  if (ylookup column "meta").isSome then
    let meta := getD column "meta" (Yaml.map [])
    match applyMetaFields meta META_FIELDS mb with
    | Except.error e => Except.error e
    | Except.ok mb1 =>
      match pyContains meta "metabase.special_type" with
      | Except.error e => Except.error e
      | Except.ok true =>
        if mb1.semantic_type.isNone then
          match pySubscript meta "metabase.special_type" with
          | Except.error e => Except.error e
          | Except.ok v => Except.ok { mb1 with semantic_type := some v }
        else Except.ok mb1
      | Except.ok false => Except.ok mb1
  else Except.ok mb

/-- The initial `mb_column` dict of `read_column`: uppercased name and the
raw description; every other key absent. -/
def initColumn (column : List (String × Yaml)) (nameS : String) : MBColumn :=
  { name := pyUpper nameS,
    description := getD column "description" Yaml.null,
    semantic_type := none,
    visibility_type := none,
    fk_target_table := none,
    fk_target_field := none }

/-- `DbtReader.read_column` on one column dict: build the base record from
`name` (uppercased, `TypeError` when not a string) and `description`, run
the tests loop, then reconcile the meta annotations. -/
def read_column (column : List (String × Yaml)) : Except PyErr MBColumn :=
  match getD column "name" (Yaml.str "") with
  | Yaml.str nameS =>
    match pyIter (getD column "tests" (Yaml.seq [])) with
    | Except.error e => Except.error e
    | Except.ok tests =>
      match applyTests column tests (initColumn column nameS) with
      | Except.error e => Except.error e
      | Except.ok mb1 => applyMeta column mb1
  | _ => Except.error PyErr.typeError

/-- One iteration of the columns loop of `read_model`: the element must be
a dict for `column.get` to exist. -/
def readColumnY (column : Yaml) : Except PyErr MBColumn :=
  match column with
  | Yaml.map cm => read_column cm
  | _ => Except.error PyErr.typeError

/-- The columns loop of `read_model`, accumulating `mb_columns` in order. -/
def readColumns : List Yaml → Except PyErr (List MBColumn)
  | [] => Except.ok []
  | c :: rest =>
    match readColumnY c with
    | Except.error e => Except.error e
    | Except.ok mb =>
      match readColumns rest with
      | Except.error e => Except.error e
      | Except.ok tl => Except.ok (mb :: tl)

/-- `DbtReader.read_model` on one model/table dict.  The columns loop runs
first; then the name expression `model.get("identifier", model["name"])`
is evaluated — Python evaluates the default argument `model["name"]`
eagerly, so the `name` key is required even when `identifier` is present —
and the resolved value is uppercased (`TypeError` when not a string). -/
def read_model (model : List (String × Yaml)) : Except PyErr MBModel :=
  match pyIter (getD model "columns" (Yaml.seq [])) with
  | Except.error e => Except.error e
  | Except.ok cols =>
    match readColumns cols with
    | Except.error e => Except.error e
    | Except.ok mb_columns =>
      match ylookup model "name" with
      | none => Except.error (PyErr.keyError "name")
      | some nameRaw =>
        match (match ylookup model "identifier" with
               | some v => v
               | none => nameRaw) with
        | Yaml.str s =>
          Except.ok
            { name := pyUpper s,
              description := getD model "description" Yaml.null,
              columns := mb_columns }
        | _ => Except.error PyErr.typeError

/-- The name expression `model.get("identifier", model["name"])` of
`read_models`, used for filtering: `model["name"]` is evaluated eagerly,
then `identifier` takes precedence when present. -/
def resolvedName (mm : List (String × Yaml)) : Except PyErr Yaml :=
  match ylookup mm "name" with
  | none => Except.error (PyErr.keyError "name")
  | some nameRaw =>
    Except.ok (match ylookup mm "identifier" with
               | some v => v
               | none => nameRaw)

/-- Python `name in includes` for a list of strings: only a string value
can be a member. -/
def yamlInStrs (v : Yaml) (xs : List String) : Bool :=
  match v with
  | Yaml.str s => xs.contains s
  | _ => false

/-- The filter of `read_models`:
`(not includes or name in includes) and (name not in excludes)`. -/
def passesFilter (name : Yaml) (includes excludes : List String) : Bool :=
  (includes.isEmpty || yamlInStrs name includes) &&
    !(yamlInStrs name excludes)

/-- One iteration of the models (or tables) loop of `read_models`: resolve
the entry's name, apply the include/exclude filter on the raw resolved
value, and normalize the entry when it passes.  A non-dict entry raises
when `model.get` is looked up. -/
def processEntry (includes excludes : List String) (model : Yaml) :
    Except PyErr (List MBModel) :=
  match model with
  | Yaml.map mm =>
    match resolvedName mm with
    | Except.error e => Except.error e
    | Except.ok nm =>
      if passesFilter nm includes excludes then
        match read_model mm with
        | Except.error e => Except.error e
        | Except.ok r => Except.ok [r]
      else Except.ok []
  | _ => Except.error PyErr.typeError

/-- The models (or tables) loop of `read_models` over a list of entries. -/
def processEntries (includes excludes : List String) :
    List Yaml → Except PyErr (List MBModel)
  | [] => Except.ok []
  | m :: rest =>
    match processEntry includes excludes m with
    | Except.error e => Except.error e
    | Except.ok r =>
      match processEntries includes excludes rest with
      | Except.error e => Except.error e
      | Except.ok rs => Except.ok (r ++ rs)

/-- The sources loop of `read_models`: each source must be a dict; its
`tables` entries go through the same per-entry processing. -/
def processSources (includes excludes : List String) :
    List Yaml → Except PyErr (List MBModel)
  | [] => Except.ok []
  | s :: rest =>
    match s with
    | Yaml.map sm =>
      match pyIter (getD sm "tables" (Yaml.seq [])) with
      | Except.error e => Except.error e
      | Except.ok tablesI =>
        match processEntries includes excludes tablesI with
        | Except.error e => Except.error e
        | Except.ok r =>
          match processSources includes excludes rest with
          | Except.error e => Except.error e
          | Except.ok rs => Except.ok (r ++ rs)
    | _ => Except.error PyErr.typeError

/-- One document of the `read_models` scan.  Only a document whose parse
result is `None` is skipped (with a logged warning); on any other
non-mapping result the attribute lookup `schema.get` raises and aborts the
scan.  A mapping is processed: its `models`, then its `sources → tables`. -/
def readDoc (includes excludes : List String) (schema : Yaml) :
    Except PyErr (List MBModel) :=
  match schema with
  | Yaml.null => Except.ok []
  | Yaml.map sm =>
    match pyIter (getD sm "models" (Yaml.seq [])) with
    | Except.error e => Except.error e
    | Except.ok modelsI =>
      match processEntries includes excludes modelsI with
      | Except.error e => Except.error e
      | Except.ok fromModels =>
        match pyIter (getD sm "sources" (Yaml.seq [])) with
        | Except.error e => Except.error e
        | Except.ok sourcesI =>
          match processSources includes excludes sourcesI with
          | Except.error e => Except.error e
          | Except.ok fromSources => Except.ok (fromModels ++ fromSources)
  | _ => Except.error PyErr.typeError

/-- `DbtReader.read_models` over the parse results of the discovered
schema documents, in traversal order (the filesystem walk itself is
plumbing outside the embedded core; `includes`/`excludes` default to `[]`
in Python when `None` is passed). -/
def read_models (includes excludes : List String) :
    List Yaml → Except PyErr (List MBModel)
  | [] => Except.ok []
  | d :: rest =>
    match readDoc includes excludes d with
    | Except.error e => Except.error e
    | Except.ok r =>
      match read_models includes excludes rest with
      | Except.error e => Except.error e
      | Except.ok rs => Except.ok (r ++ rs)

/-! ## Lemmas about the reference parser -/

theorem matchRefAt_chars {l run : List Char} (h : matchRefAt l = some run) :
    ∀ c ∈ run, isRefNameChar c = true := by
  match l with
  | [] => simp [matchRefAt] at h
  | [_] => simp [matchRefAt] at h
  | [_, _] => simp [matchRefAt] at h
  | [_, _, _] => simp [matchRefAt] at h
  | [_, _, _, _] => simp [matchRefAt] at h
  | a :: b :: c :: d :: q :: rest =>
    simp only [matchRefAt] at h
    split at h
    · split at h
      · exact absurd h (by simp)
      · rename_i r rs heq
        split at h
        · split at h
          · injection h with h
            subst h
            intro x hx
            rw [← heq] at hx
            exact List.mem_takeWhile_imp hx
          · exact absurd h (by simp)
        · exact absurd h (by simp)
    · exact absurd h (by simp)

theorem matchRefAt_none_of_chars {l : List Char}
    (hl : ∀ c ∈ l, isRefNameChar c = true) : matchRefAt l = none := by
  match l with
  | [] => rfl
  | [_] => rfl
  | [_, _] => rfl
  | [_, _, _] => rfl
  | [_, _, _, _] => rfl
  | a :: b :: c :: d :: q :: rest =>
    have hd : isRefNameChar d = true := hl d (by simp)
    simp only [matchRefAt]
    split
    · rename_i hcond
      obtain ⟨-, -, -, hd4, -⟩ := hcond
      rw [hd4] at hd
      exact absurd hd (by decide)
    · rfl

theorem findRef_none_of_chars {l : List Char}
    (hl : ∀ c ∈ l, isRefNameChar c = true) : findRef l = none := by
  induction l with
  | nil => rfl
  | cons c cs ih =>
    simp only [findRef]
    rw [matchRefAt_none_of_chars hl]
    exact ih (fun x hx => hl x (List.mem_cons_of_mem _ hx))

theorem findRef_chars {l run : List Char} (h : findRef l = some run) :
    ∀ c ∈ run, isRefNameChar c = true := by
  induction l with
  | nil => simp [findRef] at h
  | cons c cs ih =>
    simp only [findRef] at h
    cases hm : matchRefAt (c :: cs) with
    | some r =>
      rw [hm] at h
      injection h with h
      subst h
      exact matchRefAt_chars hm
    | none =>
      rw [hm] at h
      exact ih h

/-- C8: `parse_ref` is idempotent — applying the reference parser to its
own output (either a captured name made only of word characters, spaces,
underscores and hyphens, or the unchanged pass-through text) yields the
same string; as a total function of the embedding it raises no error on
any input. -/
theorem dbt_c8_parse_ref_idempotent (t : String) :
    parse_ref (parse_ref t) = parse_ref t := by
  cases h : findRef t.data with
  | none =>
    simp [parse_ref, h]
  | some run =>
    have hrun : parse_ref t = String.mk run := by simp [parse_ref, h]
    rw [hrun]
    have hnone : findRef (String.mk run).data = none :=
      findRef_none_of_chars (findRef_chars h)
    simp [parse_ref, hnone]

/-! ## Lemmas about the tests loop -/

theorem applyTests_skip {c : List (String × Yaml)} {t : Yaml}
    {rest : List Yaml} {mb : MBColumn} (h : relOf t = none) :
    applyTests c (t :: rest) mb = applyTests c rest mb := by
  simp [applyTests, h]

theorem applyTests_skip_all {c : List (String × Yaml)} {l : List Yaml}
    {mb : MBColumn} (h : ∀ x ∈ l, relOf x = none) :
    applyTests c l mb = Except.ok mb := by
  induction l with
  | nil => rfl
  | cons t rest ih =>
    rw [applyTests_skip (h t (by simp))]
    exact ih (fun x hx => h x (List.mem_cons_of_mem _ hx))

theorem applyTests_skip_append {c : List (String × Yaml)}
    {pre l : List Yaml} {mb : MBColumn} (h : ∀ x ∈ pre, relOf x = none) :
    applyTests c (pre ++ l) mb = applyTests c l mb := by
  induction pre with
  | nil => rfl
  | cons t rest ih =>
    rw [List.cons_append, applyTests_skip (h t (by simp))]
    exact ih (fun x hx => h x (List.mem_cons_of_mem _ hx))

theorem applyTests_step {c : List (String × Yaml)} {t rel : Yaml}
    {rest : List Yaml} {mb : MBColumn} {tbl fld : String}
    (hrel : relOf t = some rel)
    (htbl : fkTargetTable c rel = Except.ok tbl)
    (hfld : fkTargetField rel = Except.ok fld) :
    applyTests c (t :: rest) mb =
      applyTests c rest
        { mb with
          semantic_type := some (Yaml.str "type/FK"),
          fk_target_table := some tbl,
          fk_target_field := some fld } := by
  simp [applyTests, hrel, htbl, hfld]

theorem applyTests_step_err {c : List (String × Yaml)} {t rel : Yaml}
    {rest : List Yaml} {mb : MBColumn} {e : PyErr}
    (hrel : relOf t = some rel)
    (htbl : fkTargetTable c rel = Except.error e) :
    applyTests c (t :: rest) mb = Except.error e := by
  simp [applyTests, hrel, htbl]

theorem fkTargetTable_noRef {c : List (String × Yaml)}
    {rm : List (String × Yaml)} {toS : String}
    (hmeta : ylookup c "meta" = none ∨
      ∃ mm, ylookup c "meta" = some (Yaml.map mm) ∧
        ylookup mm "metabase.fk_ref" = none)
    (hto : ylookup rm "to" = some (Yaml.str toS)) :
    fkTargetTable c (Yaml.map rm) = Except.ok (pyUpper (parse_ref toS)) := by
  rcases hmeta with h | ⟨mm, hm, hfk⟩
  · simp [fkTargetTable, getD, h, pySubscript, hto, ylookup]
  · simp [fkTargetTable, getD, hm, pySubscript, hto, hfk]

theorem fkTargetTable_missing_to {c : List (String × Yaml)}
    {mm rm : List (String × Yaml)}
    (hm : ylookup c "meta" = some (Yaml.map mm))
    (hto : ylookup rm "to" = none) :
    fkTargetTable c (Yaml.map rm) = Except.error (PyErr.keyError "to") := by
  simp [fkTargetTable, getD, hm, pySubscript, hto]

theorem fkTargetField_eq {rm : List (String × Yaml)} {f : String}
    (hf : ylookup rm "field" = some (Yaml.str f)) :
    fkTargetField (Yaml.map rm) = Except.ok (pyUpper f) := by
  simp [fkTargetField, pySubscript, hf]

theorem applyTests_last {c : List (String × Yaml)} {t rel : Yaml}
    {tbl fld : String}
    (hrel : relOf t = some rel)
    (htbl : fkTargetTable c rel = Except.ok tbl)
    (hfld : fkTargetField rel = Except.ok fld) :
    ∀ (pre post : List Yaml) (mb mb2 : MBColumn),
      (∀ x ∈ post, relOf x = none) →
      applyTests c (pre ++ t :: post) mb = Except.ok mb2 →
      mb2.semantic_type = some (Yaml.str "type/FK") ∧
        mb2.fk_target_table = some tbl ∧ mb2.fk_target_field = some fld := by
  intro pre
  induction pre with
  | nil =>
    intro post mb mb2 hpost hrun
    rw [List.nil_append, applyTests_step hrel htbl hfld,
      applyTests_skip_all hpost] at hrun
    injection hrun with hrun
    subst hrun
    exact ⟨rfl, rfl, rfl⟩
  | cons x rest ih =>
    intro post mb mb2 hpost hrun
    rw [List.cons_append] at hrun
    cases hx : relOf x with
    | none =>
      rw [applyTests_skip hx] at hrun
      exact ih post mb mb2 hpost hrun
    | some relx =>
      simp only [applyTests, hx] at hrun
      cases htt : fkTargetTable c relx with
      | error e => rw [htt] at hrun; simp at hrun
      | ok tblx =>
        rw [htt] at hrun
        cases htf : fkTargetField relx with
        | error e => rw [htf] at hrun; simp at hrun
        | ok fldx =>
          rw [htf] at hrun
          exact ih post _ mb2 hpost hrun

theorem applyTests_preserve {c : List (String × Yaml)} :
    ∀ (l : List Yaml) (mb mb2 : MBColumn),
      applyTests c l mb = Except.ok mb2 →
      mb.semantic_type = some (Yaml.str "type/FK") →
      mb.fk_target_table.isSome = true →
      mb.fk_target_field.isSome = true →
      mb2.semantic_type = some (Yaml.str "type/FK") ∧
        mb2.fk_target_table.isSome = true ∧
        mb2.fk_target_field.isSome = true := by
  intro l
  induction l with
  | nil =>
    intro mb mb2 h h1 h2 h3
    injection h with h
    subst h
    exact ⟨h1, h2, h3⟩
  | cons t rest ih =>
    intro mb mb2 h h1 h2 h3
    cases hx : relOf t with
    | none =>
      rw [applyTests_skip hx] at h
      exact ih mb mb2 h h1 h2 h3
    | some relx =>
      simp only [applyTests, hx] at h
      cases htt : fkTargetTable c relx with
      | error e => rw [htt] at h; simp at h
      | ok tblx =>
        rw [htt] at h
        cases htf : fkTargetField relx with
        | error e => rw [htf] at h; simp at h
        | ok fldx =>
          rw [htf] at h
          exact ih _ mb2 h rfl rfl rfl

theorem applyTests_rel_fields {c : List (String × Yaml)} :
    ∀ (l : List Yaml) (mb mb2 : MBColumn),
      l.any isRelTest = true →
      applyTests c l mb = Except.ok mb2 →
      mb2.semantic_type = some (Yaml.str "type/FK") ∧
        mb2.fk_target_table.isSome = true ∧
        mb2.fk_target_field.isSome = true := by
  intro l
  induction l with
  | nil => intro mb mb2 h; simp at h
  | cons t rest ih =>
    intro mb mb2 hany h
    cases hx : relOf t with
    | none =>
      rw [applyTests_skip hx] at h
      have : rest.any isRelTest = true := by
        rcases List.any_eq_true.mp hany with ⟨x, hx1, hx2⟩
        rcases List.mem_cons.mp hx1 with h0 | h0
        · subst h0
          exact absurd hx2 (by simp [isRelTest, hx])
        · exact List.any_eq_true.mpr ⟨x, h0, hx2⟩
      exact ih mb mb2 this h
    | some relx =>
      simp only [applyTests, hx] at h
      cases htt : fkTargetTable c relx with
      | error e => rw [htt] at h; simp at h
      | ok tblx =>
        rw [htt] at h
        cases htf : fkTargetField relx with
        | error e => rw [htf] at h; simp at h
        | ok fldx =>
          rw [htf] at h
          exact applyTests_preserve rest _ mb2 h rfl rfl rfl

/-! ## Lemmas about the meta annotation block -/

theorem applyMetaFields_map (mm : List (String × Yaml)) (mb : MBColumn) :
    applyMetaFields (Yaml.map mm) META_FIELDS mb =
      Except.ok
        { mb with
          semantic_type :=
            (match ylookup mm "metabase.semantic_type" with
             | some v => some v
             | none => mb.semantic_type),
          visibility_type :=
            (match ylookup mm "metabase.visibility_type" with
             | some v => some v
             | none => mb.visibility_type) } := by
  cases h1 : ylookup mm "metabase.semantic_type" with
  | none =>
    cases h2 : ylookup mm "metabase.visibility_type" with
    | none =>
      simp [applyMetaFields, META_FIELDS, pyContains, h1, h2]
    | some v2 =>
      simp [applyMetaFields, META_FIELDS, pyContains, pySubscript,
        setMetaField, h1, h2]
  | some v1 =>
    cases h2 : ylookup mm "metabase.visibility_type" with
    | none =>
      simp [applyMetaFields, META_FIELDS, pyContains, pySubscript,
        setMetaField, h1, h2]
    | some v2 =>
      simp [applyMetaFields, META_FIELDS, pyContains, pySubscript,
        setMetaField, h1, h2]

theorem applyMeta_none {c : List (String × Yaml)} {mb : MBColumn}
    (h : ylookup c "meta" = none) : applyMeta c mb = Except.ok mb := by
  simp [applyMeta, h]

theorem applyMeta_map {c mm : List (String × Yaml)} {mb : MBColumn}
    (h : ylookup c "meta" = some (Yaml.map mm)) :
    applyMeta c mb = Except.ok
      { mb with
        semantic_type :=
          (match ylookup mm "metabase.semantic_type" with
           | some v => some v
           | none =>
             match mb.semantic_type with
             | some w => some w
             | none => ylookup mm "metabase.special_type"),
        visibility_type :=
          (match ylookup mm "metabase.visibility_type" with
           | some v => some v
           | none => mb.visibility_type) } := by
  have hg : getD c "meta" (Yaml.map []) = Yaml.map mm := by simp [getD, h]
  cases h1 : ylookup mm "metabase.semantic_type" with
  | some v1 =>
    cases hs : ylookup mm "metabase.special_type" with
    | some vs =>
      simp [applyMeta, h, hg, applyMetaFields_map, pyContains, pySubscript,
        h1, hs]
    | none =>
      simp [applyMeta, h, hg, applyMetaFields_map, pyContains, h1, hs]
  | none =>
    cases hmb : mb.semantic_type with
    | some w =>
      cases hs : ylookup mm "metabase.special_type" with
      | some vs =>
        simp [applyMeta, h, hg, applyMetaFields_map, pyContains, pySubscript,
          h1, hs, hmb]
      | none =>
        simp [applyMeta, h, hg, applyMetaFields_map, pyContains, h1, hs, hmb]
    | none =>
      cases hs : ylookup mm "metabase.special_type" with
      | some vs =>
        simp [applyMeta, h, hg, applyMetaFields_map, pyContains, pySubscript,
          h1, hs, hmb]
      | none =>
        simp [applyMeta, h, hg, applyMetaFields_map, pyContains, h1, hs, hmb]

theorem applyMeta_nonmap {c : List (String × Yaml)} {v : Yaml}
    {mb mb2 : MBColumn} (hm : ylookup c "meta" = some v)
    (hnm : ∀ mm, v ≠ Yaml.map mm)
    (h : applyMeta c mb = Except.ok mb2) : mb2 = mb := by
  have hg : getD c "meta" (Yaml.map []) = v := by simp [getD, hm]
  cases v with
  | map mm => exact absurd rfl (hnm mm)
  | null =>
    simp [applyMeta, hm, hg, applyMetaFields, META_FIELDS, pyContains] at h
  | bool b =>
    simp [applyMeta, hm, hg, applyMetaFields, META_FIELDS, pyContains] at h
  | str s =>
    cases hb1 : charsHave "metabase.semantic_type".data s.data with
    | true =>
      simp [applyMeta, hm, hg, applyMetaFields, META_FIELDS, pyContains,
        pySubscript, hb1] at h
    | false =>
      cases hb2 : charsHave "metabase.visibility_type".data s.data with
      | true =>
        simp [applyMeta, hm, hg, applyMetaFields, META_FIELDS, pyContains,
          pySubscript, hb1, hb2] at h
      | false =>
        cases hb3 : charsHave "metabase.special_type".data s.data with
        | true =>
          cases hmb : mb.semantic_type with
          | none =>
            simp [applyMeta, hm, hg, applyMetaFields, META_FIELDS,
              pyContains, pySubscript, hb1, hb2, hb3, hmb] at h
          | some w =>
            simp [applyMeta, hm, hg, applyMetaFields, META_FIELDS,
              pyContains, pySubscript, hb1, hb2, hb3, hmb] at h
            exact h.symm
        | false =>
          simp [applyMeta, hm, hg, applyMetaFields, META_FIELDS, pyContains,
            hb1, hb2, hb3] at h
          exact h.symm
  | seq l =>
    cases hb1 : l.any (fun y => yamlEqStr y "metabase.semantic_type") with
    | true =>
      simp [applyMeta, hm, hg, applyMetaFields, META_FIELDS, pyContains,
        pySubscript, hb1] at h
    | false =>
      cases hb2 : l.any (fun y => yamlEqStr y "metabase.visibility_type") with
      | true =>
        simp [applyMeta, hm, hg, applyMetaFields, META_FIELDS, pyContains,
          pySubscript, hb1, hb2] at h
      | false =>
        cases hb3 : l.any (fun y => yamlEqStr y "metabase.special_type") with
        | true =>
          cases hmb : mb.semantic_type with
          | none =>
            simp [applyMeta, hm, hg, applyMetaFields, META_FIELDS,
              pyContains, pySubscript, hb1, hb2, hb3, hmb] at h
          | some w =>
            simp [applyMeta, hm, hg, applyMetaFields, META_FIELDS,
              pyContains, pySubscript, hb1, hb2, hb3, hmb] at h
            exact h.symm
        | false =>
          simp [applyMeta, hm, hg, applyMetaFields, META_FIELDS, pyContains,
            hb1, hb2, hb3] at h
          exact h.symm

theorem applyMeta_frame {c : List (String × Yaml)} {mb mb2 : MBColumn}
    (h : applyMeta c mb = Except.ok mb2) :
    mb2.name = mb.name ∧ mb2.description = mb.description ∧
      mb2.fk_target_table = mb.fk_target_table ∧
      mb2.fk_target_field = mb.fk_target_field ∧
      (mb2.semantic_type = mb.semantic_type ∨
        ∃ mm, ylookup c "meta" = some (Yaml.map mm) ∧
          ((ylookup mm "metabase.semantic_type").isSome = true ∨
            (ylookup mm "metabase.special_type").isSome = true)) := by
  cases hm : ylookup c "meta" with
  | none =>
    rw [applyMeta_none hm] at h
    injection h with h
    subst h
    exact ⟨rfl, rfl, rfl, rfl, Or.inl rfl⟩
  | some v =>
    cases hv : v with
    | map mm =>
      subst hv
      rw [applyMeta_map hm] at h
      injection h with h
      subst h
      refine ⟨rfl, rfl, rfl, rfl, ?_⟩
      cases h1 : ylookup mm "metabase.semantic_type" with
      | some v1 => exact Or.inr ⟨mm, rfl, Or.inl (by simp [h1])⟩
      | none =>
        cases hmb : mb.semantic_type with
        | some w => exact Or.inl (by simp [h1, hmb])
        | none =>
          cases hs : ylookup mm "metabase.special_type" with
          | none => exact Or.inl (by simp [h1, hmb, hs])
          | some vs => exact Or.inr ⟨mm, rfl, Or.inr (by simp [hs])⟩
    | null =>
      subst hv
      have := applyMeta_nonmap hm (by intro mm hc; cases hc) h
      subst this
      exact ⟨rfl, rfl, rfl, rfl, Or.inl rfl⟩
    | bool b =>
      subst hv
      have := applyMeta_nonmap hm (by intro mm hc; cases hc) h
      subst this
      exact ⟨rfl, rfl, rfl, rfl, Or.inl rfl⟩
    | str s =>
      subst hv
      have := applyMeta_nonmap hm (by intro mm hc; cases hc) h
      subst this
      exact ⟨rfl, rfl, rfl, rfl, Or.inl rfl⟩
    | seq l =>
      subst hv
      have := applyMeta_nonmap hm (by intro mm hc; cases hc) h
      subst this
      exact ⟨rfl, rfl, rfl, rfl, Or.inl rfl⟩

/-! ## Computation lemmas for `read_column` -/

theorem read_column_eq {c : List (String × Yaml)} {nameS : String}
    {ts : List Yaml} {mb1 : MBColumn}
    (hn : getD c "name" (Yaml.str "") = Yaml.str nameS)
    (ht : getD c "tests" (Yaml.seq []) = Yaml.seq ts)
    (ha : applyTests c ts (initColumn c nameS) = Except.ok mb1) :
    read_column c = applyMeta c mb1 := by
  simp [read_column, hn, ht, pyIter, ha]

theorem read_column_err {c : List (String × Yaml)} {nameS : String}
    {ts : List Yaml} {e : PyErr}
    (hn : getD c "name" (Yaml.str "") = Yaml.str nameS)
    (ht : getD c "tests" (Yaml.seq []) = Yaml.seq ts)
    (ha : applyTests c ts (initColumn c nameS) = Except.error e) :
    read_column c = Except.error e := by
  simp [read_column, hn, ht, pyIter, ha]

theorem read_column_ok_destruct {c : List (String × Yaml)} {mb : MBColumn}
    (h : read_column c = Except.ok mb) :
    ∃ nameS ts mb1,
      getD c "name" (Yaml.str "") = Yaml.str nameS ∧
        pyIter (getD c "tests" (Yaml.seq [])) = Except.ok ts ∧
        applyTests c ts (initColumn c nameS) = Except.ok mb1 ∧
        applyMeta c mb1 = Except.ok mb := by
  unfold read_column at h
  split at h
  · rename_i nameS hn
    split at h
    · simp at h
    · rename_i ts hts
      split at h
      · simp at h
      · rename_i mb1 hmb1
        exact ⟨nameS, ts, mb1, hn, hts, hmb1, h⟩
  · simp at h

/-! ## Claim C1 -/

/-- C1: for a column declaration whose tests contain a (single)
relationship test with `to` and `field` entries, and whose meta mapping has
no `metabase.fk_ref` key, `read_column` succeeds and returns
`fk_target_table` equal to the uppercased `parse_ref` of the test's `to`
expression, `fk_target_field` equal to the uppercased `field` value, and
`semantic_type = "type/FK"` unless overridden by a
`metabase.semantic_type` annotation. -/
theorem dbt_c1_fk_detection
    (c : List (String × Yaml)) (ts pre post : List Yaml)
    (tm rm : List (String × Yaml)) (toS fldS : String)
    (hname : ylookup c "name" = none ∨
      ∃ n, ylookup c "name" = some (Yaml.str n))
    (htests : ylookup c "tests" = some (Yaml.seq ts))
    (hsplit : ts = pre ++ Yaml.map tm :: post)
    (hpre : ∀ x ∈ pre, relOf x = none)
    (hpost : ∀ x ∈ post, relOf x = none)
    (hrel : ylookup tm "relationships" = some (Yaml.map rm))
    (hto : ylookup rm "to" = some (Yaml.str toS))
    (hfld : ylookup rm "field" = some (Yaml.str fldS))
    (hmeta : ylookup c "meta" = none ∨
      ∃ mm, ylookup c "meta" = some (Yaml.map mm) ∧
        ylookup mm "metabase.fk_ref" = none) :
    ∃ mb, read_column c = Except.ok mb ∧
      mb.fk_target_table = some (pyUpper (parse_ref toS)) ∧
      mb.fk_target_field = some (pyUpper fldS) ∧
      ((∀ mm, ylookup c "meta" = some (Yaml.map mm) →
          ylookup mm "metabase.semantic_type" = none) →
        mb.semantic_type = some (Yaml.str "type/FK")) := by
  obtain ⟨nameS, hn⟩ : ∃ n, getD c "name" (Yaml.str "") = Yaml.str n := by
    rcases hname with h | ⟨n, h⟩
    · exact ⟨"", by simp [getD, h]⟩
    · exact ⟨n, by simp [getD, h]⟩
  have ht : getD c "tests" (Yaml.seq []) = Yaml.seq ts := by
    simp [getD, htests]
  have hrel' : relOf (Yaml.map tm) = some (Yaml.map rm) := by
    simp [relOf, hrel]
  have htbl := fkTargetTable_noRef hmeta hto
  have hfld' := fkTargetField_eq hfld
  have happ : applyTests c ts (initColumn c nameS) =
      Except.ok
        { initColumn c nameS with
          semantic_type := some (Yaml.str "type/FK"),
          fk_target_table := some (pyUpper (parse_ref toS)),
          fk_target_field := some (pyUpper fldS) } := by
    rw [hsplit, applyTests_skip_append hpre, applyTests_step hrel' htbl hfld',
      applyTests_skip_all hpost]
  have hrc := read_column_eq hn ht happ
  rcases hmeta with hm | ⟨mm, hm, hfk⟩
  · exact ⟨_, by rw [hrc, applyMeta_none hm], rfl, rfl, fun _ => rfl⟩
  · rw [hrc, applyMeta_map hm]
    refine ⟨_, rfl, rfl, rfl, ?_⟩
    intro hann
    have hnone := hann mm hm
    simp [hnone]

/-- The relationship payload of the C1 end-to-end scenario. -/
def c1rm : List (String × Yaml) :=
  [("to", Yaml.str "ref('orders')"), ("field", Yaml.str "customer_id")]

/-- The relationship test of the C1 end-to-end scenario. -/
def c1tm : List (String × Yaml) := [("relationships", Yaml.map c1rm)]

/-- The `customer_id` column declaration of the C1 end-to-end scenario. -/
def c1col : List (String × Yaml) :=
  [("name", Yaml.str "customer_id"), ("tests", Yaml.seq [Yaml.map c1tm])]

/-- Witness for C1 at the end-to-end scenario: the `customer_id` column
with test `{relationships: {to: "ref('orders')", field: "customer_id"}}`
normalizes to semantic type `type/FK`, target table `ORDERS`, target field
`CUSTOMER_ID`. -/
theorem dbt_c1_fk_detection_witness :
    ∃ mb, read_column c1col = Except.ok mb ∧
      mb.fk_target_table = some "ORDERS" ∧
      mb.fk_target_field = some "CUSTOMER_ID" ∧
      mb.semantic_type = some (Yaml.str "type/FK") ∧ mb.name = "CUSTOMER_ID" := by
  obtain ⟨mb, h1, h2, h3, h4⟩ :=
    dbt_c1_fk_detection c1col [Yaml.map c1tm] [] [] c1tm c1rm
      "ref('orders')" "customer_id"
      (Or.inr ⟨"customer_id", rfl⟩) rfl rfl (by simp) (by simp) rfl rfl rfl
      (Or.inl rfl)
  have hsem := h4 (by intro mm hm; simp [c1col, ylookup] at hm)
  have hname : mb.name = "CUSTOMER_ID" := by
    have hcomp : read_column c1col =
        Except.ok
          { name := "CUSTOMER_ID", description := Yaml.null,
            semantic_type := some (Yaml.str "type/FK"),
            visibility_type := none,
            fk_target_table := some "ORDERS",
            fk_target_field := some "CUSTOMER_ID" } := rfl
    rw [h1] at hcomp
    injection hcomp with hcomp
    rw [hcomp]
  exact ⟨mb, h1, by rw [h2]; rfl, by rw [h3]; rfl, hsem, hname⟩

/-! ## Claim C4 -/

/-- A column with two well-formed relationship tests, the first targeting
`a`/`f1` and the second targeting `b`/`f2`. -/
def c4col : List (String × Yaml) :=
  [("name", Yaml.str "x"),
   ("tests",
    Yaml.seq
      [Yaml.map
        [("relationships",
          Yaml.map [("to", Yaml.str "a"), ("field", Yaml.str "f1")])],
       Yaml.map
        [("relationships",
          Yaml.map [("to", Yaml.str "b"), ("field", Yaml.str "f2")])]])]

/-- The column record `read_column` actually produces for `c4col`. -/
def c4res : MBColumn :=
  { name := "X", description := Yaml.null,
    semantic_type := some (Yaml.str "type/FK"),
    visibility_type := none,
    fk_target_table := some "B",
    fk_target_field := some "F2" }

/-- C4 counterexample: on a column with two relationship tests the result
is determined by the second (last) test — `fk_target_table = "B"`,
`fk_target_field = "F2"` — not by the first test, whose `to` is `a` and
whose `field` is `f1`. -/
theorem dbt_c4_counterexample :
    read_column c4col = Except.ok c4res ∧
      c4res.fk_target_table ≠ some (pyUpper (parse_ref "a")) ∧
      c4res.fk_target_field ≠ some (pyUpper "f1") := by
  refine ⟨rfl, ?_, ?_⟩
  · intro h
    rw [show (pyUpper (parse_ref "a")) = "A" from rfl] at h
    simp [c4res] at h
  · intro h
    rw [show (pyUpper "f1") = "F1" from rfl] at h
    simp [c4res] at h

/-- C4 amended: when a column's tests contain several relationship tests,
the `semantic_type`, `fk_target_table` and `fk_target_field` returned by a
successful `read_column` are determined by the last matching relationship
test in the sequence (each matching test overwrites the previous values),
not by the first one. -/
theorem dbt_c4_amended_last_wins
    (c : List (String × Yaml)) (ts pre post : List Yaml)
    (tm rm : List (String × Yaml)) (toS fldS : String) (mb : MBColumn)
    (htests : ylookup c "tests" = some (Yaml.seq ts))
    (hsplit : ts = pre ++ Yaml.map tm :: post)
    (hpost : ∀ x ∈ post, relOf x = none)
    (hrel : ylookup tm "relationships" = some (Yaml.map rm))
    (hto : ylookup rm "to" = some (Yaml.str toS))
    (hfld : ylookup rm "field" = some (Yaml.str fldS))
    (hmeta : ylookup c "meta" = none ∨
      ∃ mm, ylookup c "meta" = some (Yaml.map mm) ∧
        ylookup mm "metabase.fk_ref" = none)
    (hok : read_column c = Except.ok mb) :
    mb.fk_target_table = some (pyUpper (parse_ref toS)) ∧
      mb.fk_target_field = some (pyUpper fldS) := by
  obtain ⟨nameS, ts', mb1, hn, hts, hmb1, hmm⟩ := read_column_ok_destruct hok
  have hts' : ts' = ts := by
    have : getD c "tests" (Yaml.seq []) = Yaml.seq ts := by
      simp [getD, htests]
    rw [this] at hts
    injection hts with hts
    exact hts.symm
  subst hts'
  have hrel' : relOf (Yaml.map tm) = some (Yaml.map rm) := by
    simp [relOf, hrel]
  have htbl := fkTargetTable_noRef hmeta hto
  have hfld' := fkTargetField_eq hfld
  rw [hsplit] at hmb1
  obtain ⟨-, h2, h3⟩ :=
    applyTests_last hrel' htbl hfld' pre post _ mb1 hpost hmb1
  obtain ⟨-, -, hframe2, hframe3, -⟩ := applyMeta_frame hmm
  exact ⟨by rw [hframe2, h2], by rw [hframe3, h3]⟩

/-- Witness for the amended C4 at the concrete two-test column: the fields
come from the second test (`b`/`f2`). -/
theorem dbt_c4_amended_witness :
    read_column c4col = Except.ok c4res ∧
      c4res.fk_target_table = some (pyUpper (parse_ref "b")) ∧
      c4res.fk_target_field = some (pyUpper "f2") := by
  have hok : read_column c4col = Except.ok c4res := rfl
  refine ⟨hok, ?_⟩
  exact dbt_c4_amended_last_wins c4col
    [Yaml.map
      [("relationships",
        Yaml.map [("to", Yaml.str "a"), ("field", Yaml.str "f1")])],
     Yaml.map
      [("relationships",
        Yaml.map [("to", Yaml.str "b"), ("field", Yaml.str "f2")])]]
    [Yaml.map
      [("relationships",
        Yaml.map [("to", Yaml.str "a"), ("field", Yaml.str "f1")])]]
    []
    [("relationships",
      Yaml.map [("to", Yaml.str "b"), ("field", Yaml.str "f2")])]
    [("to", Yaml.str "b"), ("field", Yaml.str "f2")]
    "b" "f2" c4res rfl rfl (by simp) rfl rfl rfl (Or.inl rfl) hok

/-! ## Claim C9 -/

/-- C9: when the first relationship test of a column lacks the `to` key,
`read_column` fails with the lookup error `KeyError: 'to'` even though the
meta mapping supplies a `metabase.fk_ref` override, because the
`parse_ref` fallback on `relationships["to"]` is evaluated unconditionally
before the override is consulted. -/
theorem dbt_c9_missing_to_despite_override
    (c : List (String × Yaml)) (ts pre post : List Yaml)
    (tm rm mm : List (String × Yaml)) (fkv : Yaml)
    (hname : ylookup c "name" = none ∨
      ∃ n, ylookup c "name" = some (Yaml.str n))
    (htests : ylookup c "tests" = some (Yaml.seq ts))
    (hsplit : ts = pre ++ Yaml.map tm :: post)
    (hpre : ∀ x ∈ pre, relOf x = none)
    (hrel : ylookup tm "relationships" = some (Yaml.map rm))
    (hto : ylookup rm "to" = none)
    (hmeta : ylookup c "meta" = some (Yaml.map mm))
    (hfk : ylookup mm "metabase.fk_ref" = some fkv) :
    read_column c = Except.error (PyErr.keyError "to") := by
  obtain ⟨nameS, hn⟩ : ∃ n, getD c "name" (Yaml.str "") = Yaml.str n := by
    rcases hname with h | ⟨n, h⟩
    · exact ⟨"", by simp [getD, h]⟩
    · exact ⟨n, by simp [getD, h]⟩
  have ht : getD c "tests" (Yaml.seq []) = Yaml.seq ts := by
    simp [getD, htests]
  have hrel' : relOf (Yaml.map tm) = some (Yaml.map rm) := by
    simp [relOf, hrel]
  have htbl := fkTargetTable_missing_to hmeta hto
  have happ : applyTests c ts (initColumn c nameS) =
      Except.error (PyErr.keyError "to") := by
    rw [hsplit, applyTests_skip_append hpre, applyTests_step_err hrel' htbl]
  exact read_column_err hn ht happ

/-- Witness for C9: a column whose single relationship test has only a
`field` entry and whose meta supplies `metabase.fk_ref` still fails with
`KeyError: 'to'`. -/
theorem dbt_c9_witness :
    read_column
        [("name", Yaml.str "x"),
         ("tests",
          Yaml.seq [Yaml.map [("relationships",
            Yaml.map [("field", Yaml.str "f")])]]),
         ("meta", Yaml.map [("metabase.fk_ref", Yaml.str "T")])] =
      Except.error (PyErr.keyError "to") :=
  dbt_c9_missing_to_despite_override
    [("name", Yaml.str "x"),
     ("tests",
      Yaml.seq [Yaml.map [("relationships",
        Yaml.map [("field", Yaml.str "f")])]]),
     ("meta", Yaml.map [("metabase.fk_ref", Yaml.str "T")])]
    [Yaml.map [("relationships", Yaml.map [("field", Yaml.str "f")])]]
    [] []
    [("relationships", Yaml.map [("field", Yaml.str "f")])]
    [("field", Yaml.str "f")]
    [("metabase.fk_ref", Yaml.str "T")]
    (Yaml.str "T")
    (Or.inr ⟨"x", rfl⟩) rfl rfl (by simp) rfl rfl rfl rfl

/-! ## Claim C2 -/

/-- C2: on every successful `read_column`, `fk_target_table` and
`fk_target_field` are both set or both absent; they are set if and only if
the column's tests sequence contains a relationship test; and for a column
without a relationship test `semantic_type` is absent unless the meta
mapping supplies a `metabase.semantic_type` or `metabase.special_type`
annotation. -/
theorem dbt_c2_fk_invariant
    (c : List (String × Yaml)) (mb : MBColumn) (ts : List Yaml)
    (hok : read_column c = Except.ok mb)
    (hts : pyIter (getD c "tests" (Yaml.seq [])) = Except.ok ts) :
    (mb.fk_target_table.isSome = true ↔ mb.fk_target_field.isSome = true) ∧
      (mb.fk_target_table.isSome = true ↔ ts.any isRelTest = true) ∧
      (ts.any isRelTest = false →
        mb.semantic_type = none ∨
          ∃ mm, ylookup c "meta" = some (Yaml.map mm) ∧
            ((ylookup mm "metabase.semantic_type").isSome = true ∨
              (ylookup mm "metabase.special_type").isSome = true)) := by
  obtain ⟨nameS, ts', mb1, hn, hts', hmb1, hmm⟩ := read_column_ok_destruct hok
  rw [hts] at hts'
  injection hts' with hts'
  subst hts'
  obtain ⟨hfn, hfd, hf2, hf3, hfsem⟩ := applyMeta_frame hmm
  cases hany : ts.any isRelTest with
  | false =>
    have hall : ∀ x ∈ ts, relOf x = none := by
      intro x hx
      have hnot := List.any_eq_false.mp hany x hx
      cases hr : relOf x with
      | none => rfl
      | some r => exact absurd (by simp [isRelTest, hr]) hnot
    rw [applyTests_skip_all hall] at hmb1
    injection hmb1 with hmb1
    subst hmb1
    refine ⟨?_, ?_, ?_⟩
    · rw [hf2, hf3]
      simp [initColumn]
    · rw [hf2]
      simp [initColumn]
    · intro _
      rcases hfsem with h | h
      · exact Or.inl (by rw [h]; simp [initColumn])
      · exact Or.inr h
  | true =>
    obtain ⟨h1, h2, h3⟩ := applyTests_rel_fields ts _ mb1 hany hmb1
    refine ⟨?_, ?_, ?_⟩
    · rw [hf2, hf3, h2, h3]
    · rw [hf2, h2]
    · intro hfalse
      simp at hfalse

/-- Witness for C2 at the empty column declaration: no tests, so both
foreign-key fields and the semantic type are absent. -/
theorem dbt_c2_witness :
    read_column [] = Except.ok
        { name := "", description := Yaml.null, semantic_type := none,
          visibility_type := none, fk_target_table := none,
          fk_target_field := none } ∧
      (({ name := "", description := Yaml.null, semantic_type := none,
          visibility_type := none, fk_target_table := none,
          fk_target_field := none } : MBColumn).fk_target_table.isSome = true ↔
        ([] : List Yaml).any isRelTest = true) :=
  ⟨rfl, (dbt_c2_fk_invariant [] _ [] rfl rfl).2.1⟩

/-! ## Claim C3 -/

/-- C3: a `metabase.semantic_type` or `metabase.visibility_type`
annotation always overwrites the value produced by foreign-key detection,
while the deprecated `metabase.special_type` alias is applied to
`semantic_type` only when neither detection (a relationship test) nor the
non-deprecated annotation has set it. -/
theorem dbt_c3_annotation_precedence
    (c mm : List (String × Yaml)) (mb : MBColumn)
    (hmeta : ylookup c "meta" = some (Yaml.map mm))
    (hok : read_column c = Except.ok mb) :
    (∀ v, ylookup mm "metabase.semantic_type" = some v →
        mb.semantic_type = some v) ∧
      (∀ v, ylookup mm "metabase.visibility_type" = some v →
        mb.visibility_type = some v) ∧
      (∀ v ts, ylookup mm "metabase.special_type" = some v →
        ylookup mm "metabase.semantic_type" = none →
        pyIter (getD c "tests" (Yaml.seq [])) = Except.ok ts →
        ((ts.any isRelTest = false → mb.semantic_type = some v) ∧
          (ts.any isRelTest = true →
            mb.semantic_type = some (Yaml.str "type/FK")))) := by
  obtain ⟨nameS, ts', mb1, hn, hts', hmb1, hmm'⟩ := read_column_ok_destruct hok
  rw [applyMeta_map hmeta] at hmm'
  injection hmm' with hmm'
  refine ⟨?_, ?_, ?_⟩
  · intro v hv
    rw [← hmm']
    simp [hv]
  · intro v hv
    rw [← hmm']
    simp [hv]
  · intro v ts hv hnone hts
    rw [hts] at hts'
    injection hts' with hts'
    subst hts'
    constructor
    · intro hany
      have hall : ∀ x ∈ ts, relOf x = none := by
        intro x hx
        have hnot := List.any_eq_false.mp hany x hx
        cases hr : relOf x with
        | none => rfl
        | some r => exact absurd (by simp [isRelTest, hr]) hnot
      rw [applyTests_skip_all hall] at hmb1
      injection hmb1 with hmb1
      subst hmb1
      rw [← hmm']
      simp [hnone, hv, initColumn]
    · intro hany
      obtain ⟨h1, -, -⟩ := applyTests_rel_fields ts _ mb1 hany hmb1
      rw [← hmm']
      simp [hnone, h1]

/-- Witness for C3: a column whose meta supplies
`metabase.semantic_type: "type/PK"` ends with that semantic type, and one
whose meta supplies only the deprecated `metabase.special_type` alias
inherits it. -/
theorem dbt_c3_witness :
    read_column [("name", Yaml.str "a"),
        ("meta", Yaml.map [("metabase.semantic_type", Yaml.str "type/PK")])] =
      Except.ok
        { name := "A", description := Yaml.null,
          semantic_type := some (Yaml.str "type/PK"),
          visibility_type := none, fk_target_table := none,
          fk_target_field := none } ∧
      ({ name := "A", description := Yaml.null,
         semantic_type := some (Yaml.str "type/PK"),
         visibility_type := none, fk_target_table := none,
         fk_target_field := none } : MBColumn).semantic_type =
        some (Yaml.str "type/PK") :=
  ⟨rfl,
    (dbt_c3_annotation_precedence
        [("name", Yaml.str "a"),
         ("meta", Yaml.map [("metabase.semantic_type", Yaml.str "type/PK")])]
        [("metabase.semantic_type", Yaml.str "type/PK")] _ rfl rfl).1
      (Yaml.str "type/PK") rfl⟩

/-! ## Claim C5 -/

/-- C5 counterexample: a document whose parse result is a list (a
non-mapping value) is not skipped with a warning — the attribute lookup
`schema.get` raises and aborts the whole scan, so the well-formed sibling
document is never processed and `read_models` returns an error instead of
continuing. -/
theorem dbt_c5_counterexample :
    read_models [] [] [Yaml.seq [], Yaml.map [("models", Yaml.seq [])]] =
      Except.error PyErr.typeError := rfl

/-- C5 amended: only a document whose parse result is `None` (an empty
document) is skipped, with a warning, and the scan of the remaining
documents continues; a document parsing to a non-mapping value such as a
list or a scalar string raises a type error that aborts the whole scan. -/
theorem dbt_c5_amended_none_skip_only :
    (∀ rest inc exc,
      read_models inc exc (Yaml.null :: rest) = read_models inc exc rest) ∧
      (∀ l rest inc exc,
        read_models inc exc (Yaml.seq l :: rest) =
          Except.error PyErr.typeError) ∧
      (∀ s rest inc exc,
        read_models inc exc (Yaml.str s :: rest) =
          Except.error PyErr.typeError) := by
  refine ⟨?_, ?_, ?_⟩
  · intro rest inc exc
    cases h : read_models inc exc rest with
    | ok rs => simp [read_models, readDoc, h]
    | error e => simp [read_models, readDoc, h]
  · intro l rest inc exc
    rfl
  · intro s rest inc exc
    rfl

/-! ## Claim C6 -/

theorem processEntry_eq {mm : List (String × Yaml)} {s : String}
    {inc exc : List String}
    (hname : resolvedName mm = Except.ok (Yaml.str s)) :
    processEntry inc exc (Yaml.map mm) =
      if (inc.isEmpty || inc.contains s) && !(exc.contains s) then
        Except.map (fun r => [r]) (read_model mm)
      else Except.ok [] := by
  simp only [processEntry, hname]
  rw [show passesFilter (Yaml.str s) inc exc =
    ((inc.isEmpty || inc.contains s) && !(exc.contains s)) from rfl]
  split
  · cases read_model mm <;> simp [Except.map]
  · rfl

/-- C6: an entry's normalized record appears in the output if and only if
(`includes` is empty or the raw resolved name is in `includes`) and the
name is not in `excludes`; `includes = []` behaves as include-all and
`excludes` takes precedence for overlapping names.  The second conjunct
ties the per-entry step to `read_models` on a one-document project. -/
theorem dbt_c6_include_exclude
    (mm : List (String × Yaml)) (s : String) (inc exc : List String)
    (hname : resolvedName mm = Except.ok (Yaml.str s)) :
    processEntry inc exc (Yaml.map mm) =
      (if (inc.isEmpty || inc.contains s) && !(exc.contains s) then
        Except.map (fun r => [r]) (read_model mm)
      else Except.ok []) ∧
    read_models inc exc [Yaml.map [("models", Yaml.seq [Yaml.map mm])]] =
      processEntry inc exc (Yaml.map mm) := by
  refine ⟨processEntry_eq hname, ?_⟩
  cases h : processEntry inc exc (Yaml.map mm) with
  | ok r =>
    simp [read_models, readDoc, processEntries, processSources, getD,
      ylookup, pyIter, h]
  | error e =>
    simp [read_models, readDoc, processEntries, processSources, getD,
      ylookup, pyIter, h]

/-- Witness for C6: a name present in both `includes` and `excludes` is
excluded — `excludes` wins — both at the per-entry step and through
`read_models`. -/
theorem dbt_c6_witness :
    processEntry ["a"] ["a"] (Yaml.map [("name", Yaml.str "a")]) =
        Except.ok [] ∧
      read_models ["a"] ["a"]
          [Yaml.map [("models", Yaml.seq [Yaml.map [("name", Yaml.str "a")]])]] =
        Except.ok [] := by
  obtain ⟨h1, h2⟩ :=
    dbt_c6_include_exclude [("name", Yaml.str "a")] "a" ["a"] ["a"] rfl
  refine ⟨?_, ?_⟩
  · rw [h1]; rfl
  · rw [h2, h1]; rfl

/-! ## Claim C7 -/

/-- C7 counterexample: an entry with `identifier` present but `name`
absent does not normalize to a record named after the identifier — the
eagerly evaluated `model["name"]` default raises `KeyError: 'name'`. -/
theorem dbt_c7_counterexample :
    read_model [("identifier", Yaml.str "customers")] =
      Except.error (PyErr.keyError "name") := rfl

/-- C7 amended: `identifier` takes precedence over `name` for the
normalized (uppercased) model name whenever `read_model` succeeds, and the
entry falls back to `name` when `identifier` is absent; but the `name` key
is unconditionally required — `model["name"]` is evaluated even when
`identifier` is present — so an entry lacking `name` (in particular one
lacking both keys) is a fatal error rather than a normalized record. -/
theorem dbt_c7_identifier_precedence (mm : List (String × Yaml)) :
    (∀ s r, ylookup mm "identifier" = some (Yaml.str s) →
        read_model mm = Except.ok r → r.name = pyUpper s) ∧
      (∀ s r, ylookup mm "identifier" = none →
        ylookup mm "name" = some (Yaml.str s) →
        read_model mm = Except.ok r → r.name = pyUpper s) ∧
      (ylookup mm "name" = none → ∀ r, read_model mm ≠ Except.ok r) := by
  refine ⟨?_, ?_, ?_⟩
  · intro s r hid hok
    unfold read_model at hok
    split at hok
    · simp at hok
    · split at hok
      · simp at hok
      · split at hok
        · simp at hok
        · rw [hid] at hok
          simp only [] at hok
          injection hok with hok
          rw [← hok]
  · intro s r hid hnm hok
    unfold read_model at hok
    split at hok
    · simp at hok
    · split at hok
      · simp at hok
      · split at hok
        · simp at hok
        · rename_i nameRaw hraw
          rw [hnm] at hraw
          injection hraw with hraw
          rw [hid, ← hraw] at hok
          simp only [] at hok
          injection hok with hok
          rw [← hok]
  · intro hnm r hok
    unfold read_model at hok
    split at hok
    · simp at hok
    · split at hok
      · simp at hok
      · split at hok
        · simp at hok
        · rename_i nameRaw hraw
          rw [hnm] at hraw
          simp at hraw

/-- Witness for the amended C7: with `identifier: a` and `name: b` the
normalized name is the uppercased identifier `A`. -/
theorem dbt_c7_witness :
    read_model [("identifier", Yaml.str "a"), ("name", Yaml.str "b")] =
        Except.ok { name := "A", description := Yaml.null, columns := [] } ∧
      ({ name := "A", description := Yaml.null,
         columns := [] } : MBModel).name = pyUpper "a" :=
  ⟨rfl,
    (dbt_c7_identifier_precedence
        [("identifier", Yaml.str "a"), ("name", Yaml.str "b")]).1
      "a" _ rfl rfl⟩

/-! ## Claim C10 -/

/-- C10: the include filter compares the raw resolved name exactly and
case-sensitively, while the emitted record's name is uppercased; an entry
whose declared name is missing from `includes` is filtered out of a
non-empty `includes` run even when an `includes` entry matches it up to
letter case (same uppercased form). -/
theorem dbt_c10_case_sensitive_filter
    (mm : List (String × Yaml)) (s e : String) (inc exc : List String)
    (hname : resolvedName mm = Except.ok (Yaml.str s))
    (hmem : e ∈ inc) (hcase : pyUpper e = pyUpper s) (hnot : s ∉ inc) :
    processEntry inc exc (Yaml.map mm) = Except.ok [] := by
  rw [processEntry_eq hname]
  have h1 : inc.contains s = false := by simpa using hnot
  have h2 : inc.isEmpty = false := by
    cases inc with
    | nil => cases hmem
    | cons a as => rfl
  rw [h1, h2]
  rfl

/-- Witness for C10: declared name `Orders` with `includes = ["ORDERS"]`
is filtered out although its uppercased output name would be `ORDERS`. -/
theorem dbt_c10_witness :
    processEntry ["ORDERS"] [] (Yaml.map [("name", Yaml.str "Orders")]) =
      Except.ok [] :=
  dbt_c10_case_sensitive_filter [("name", Yaml.str "Orders")] "Orders"
    "ORDERS" ["ORDERS"] [] rfl (by simp) rfl (by simp)
